import Mathlib

/-!
Verification of the XpressNet client (xpressnet.py): a shallow embedding of the
frame codec, message decoder, response router and command session, together with
theorems settling the specification claims.  Bytes are modelled as Nat; the
transport is modelled as a finite list of bytes, where running past the end of
the list corresponds to a read that blocks forever.  Python exceptions are
modelled with an explicit error type.
-/

namespace XpressNet

/-- Error outcomes of the Python client.  All protocol errors in the source are
raised as the single class XpressNetException, modelled by xnException.
valueError models Python ValueError (invalid enum value or byte out of range),
typeError models the TypeError raised by functools.reduce on an empty sequence,
indexError models IndexError on a too-short payload, attributeError models
AttributeError on a missing attribute, blockedRead models a socket read that
never completes because the stream has no more bytes, and fuelExhausted is the
artificial bound of the loop model (never reached with the default fuel). -/
inductive Err where
  | blockedRead
  | fuelExhausted
  | valueError
  | typeError
  | indexError
  | attributeError
  | xnException
deriving DecidableEq, Repr

/-- The Command enum of the source: the set of valid whole-byte command codes.
Python Command(x) raises ValueError for any other value. -/
def isValidCommand (n : Nat) : Bool :=
  n = 0x00 || n = 0x20 || n = 0x40 || n = 0x50 || n = 0x60 || n = 0x80 ||
  n = 0xE0 || n = 0xF0

/-- The Status enum of the source: the set of valid status byte values.
Python Status(x) raises ValueError for any other value. -/
def isValidStatus (n : Nat) : Bool :=
  n = 0x00 || n = 0x01 || n = 0x02 || n = 0x04 || n = 0x05 || n = 0x06 ||
  n = 0x07 || n = 0x08 || n = 0x09 || n = 0x0A || n = 0x11 || n = 0x12 ||
  n = 0x13 || n = 0x1F

/-- The TrackStatus enum of the source: TRACK_OFF = 0, TRACK_ON = 1,
PROGRAMMING = 2. -/
inductive TrackStatus where
  | off
  | on
  | programming
deriving DecidableEq, Repr

/-- Python TrackStatus(x): valid for 0, 1, 2 and a ValueError (none) otherwise. -/
def TrackStatus.ofValue : Nat → Option TrackStatus
  | 0 => some .off
  | 1 => some .on
  | 2 => some .programming
  | _ => none

/-- The AccessoryKind enum of the source, values 0 to 3. -/
inductive AccessoryKind where
  | outputWithoutFeedback
  | outputWithFeedback
  | input
  | reserved
deriving DecidableEq, Repr

/-- Python AccessoryKind(x): valid for 0 to 3, ValueError (none) otherwise. -/
def AccessoryKind.ofValue : Nat → Option AccessoryKind
  | 0 => some .outputWithoutFeedback
  | 1 => some .outputWithFeedback
  | 2 => some .input
  | 3 => some .reserved
  | _ => none

/-- Numeric value of each AccessoryKind member, as in the source enum. -/
def AccessoryKind.toNat : AccessoryKind → Nat
  | .outputWithoutFeedback => 0
  | .outputWithFeedback => 1
  | .input => 2
  | .reserved => 3

/-- The AccessoryStateMessage class of the source (fields set in init). -/
structure AccessoryStateMessage where
  address : Nat
  undetermined : Bool
  kind : AccessoryKind
  nibble : Nat
  state : List Nat
deriving DecidableEq, Repr

/-- Embedding of AccessoryStateMessage(bytes) for a non-None argument: reads
bytes 0 and 1 (IndexError when fewer than two bytes are present) and decodes
address, undetermined (bit 6), kind (bits 6 and 5), nibble (bit 4) and the
four state bits exactly as the source does. -/
def AccessoryStateMessage.ofBytes : List Nat → Except Err AccessoryStateMessage
  | b0 :: b1 :: _ =>
    match AccessoryKind.ofValue ((b1 >>> 5) &&& 0b11) with
    | some k =>
      .ok { address := b0
            undetermined := b1 &&& 0b1000000 != 0
            kind := k
            nibble := (b1 >>> 4) &&& 0b1
            state := (List.range 4).map (fun i => if b1 &&& (1 <<< i) != 0 then 1 else 0) }
    | none => .error .valueError
  | _ => .error .indexError

/-- The XpressNetCommandResult class of the source.  The constructor validates
code against Command and status against Status; those validations are carried
out at the construction sites in getStatus below, where the arguments are
known. -/
structure XpressNetCommandResult where
  code : Nat
  status : Nat
  data : List Nat
deriving DecidableEq, Repr

/-- The XpressNetProgrammingResult class of the source (no validation). -/
structure XpressNetProgrammingResult where
  cv : Nat
  value : Nat
deriving DecidableEq, Repr

/-- The decoded message variants that getStatus can return. -/
inductive Msg where
  | commandResult (r : XpressNetCommandResult)
  | programmingResult (r : XpressNetProgrammingResult)
  | trackStatusMessage (s : TrackStatus)
  | accessoryState (a : AccessoryStateMessage)
deriving DecidableEq, Repr

/-- The mutable session fields of an XpressNet instance that the response
handler touches: last_broadcast and track_status. -/
structure SessionState where
  last_broadcast : Option Msg
  track_status : TrackStatus
deriving DecidableEq, Repr

/-- The session fields as set by the constructor: last_broadcast = None and
track_status = TrackStatus.TRACK_OFF. -/
def initState : SessionState :=
  { last_broadcast := none, track_status := .off }

/-- Python functools.reduce of XOR over a byte sequence with no initial value:
a TypeError (none) on the empty sequence, otherwise a left fold of XOR starting
from the first element.  This is the reduce expression used both by send and by
the checksum verifier. -/
def checksumReduce : List Nat → Option Nat
  | [] => none
  | b :: bs => some (bs.foldl (· ^^^ ·) b)

/-- Embedding of the private checksum method: recomputes the XOR reduce of the
data and raises XpressNetException when it differs from the received sum. -/
def checksumCheck (data : List Nat) (sum : Nat) : Except Err Unit :=
  match checksumReduce data with
  | none => .error .typeError
  | some c => if c ≠ sum then .error .xnException else .ok ()

/-- Embedding of send: the frame is 0xFF 0xFE, the given data bytes, then the
XOR reduce of those same data bytes.  bytearray.extend raises ValueError on a
byte out of range before the reduce runs; the reduce raises TypeError on empty
data. -/
def send (data : List Nat) : Except Err (List Nat) :=
  if data.any (fun b => 255 < b) then .error .valueError
  else
    match checksumReduce data with
    | none => .error .typeError
    | some c => .ok ([0xFF, 0xFE] ++ data ++ [c])

/-- Embedding of the private getStatus method.  cmd is the command the session
is waiting on (none for receive_one).  The length argument is passed by the
caller but never used by the source method; it is kept for fidelity. -/
def getStatus (cmd : Option Nat) (isBroadcast : Bool) (code length : Nat)
    (data : List Nat) : Except Err Msg :=
  if code = 0x00 then
    if cmd = some 0xF0 then
      .ok (.commandResult { code := code, status := 0x00, data := data })
    else
      match data with
      | [s] =>
        if isValidStatus s then
          .ok (.commandResult { code := code, status := s, data := [] })
        else .error .valueError
      | _ => .error .xnException
  else if code = 0x60 then
    if isBroadcast then
      match data with
      | [s] =>
        match TrackStatus.ofValue s with
        | some ts => .ok (.trackStatusMessage ts)
        | none => .error .valueError
      | _ => .error .xnException
    else
      match data with
      | [subcode, cv, value] =>
        if subcode = 0x10 then .ok (.programmingResult { cv := cv, value := value })
        else if subcode = 0x14 then
          if cv = 0 then .ok (.programmingResult { cv := 1024, value := value })
          else .ok (.programmingResult { cv := cv, value := value })
        else if subcode = 0x15 then .ok (.programmingResult { cv := cv + 256, value := value })
        else if subcode = 0x16 then .ok (.programmingResult { cv := cv + 512, value := value })
        else if subcode = 0x17 then .ok (.programmingResult { cv := cv + 768, value := value })
        else .error .xnException
      | _ => .error .xnException
  else if code = 0xF0 then
    match data with
    | subcode :: rest =>
      if subcode = 0x01 || subcode = 0x02 || subcode = 0x03 then
        .ok (.commandResult { code := code, status := 0x00, data := rest })
      else .error .xnException
    | [] => .error .valueError
  else if code = 0x40 then
    match AccessoryStateMessage.ofBytes data with
    | .ok m => .ok (.accessoryState m)
    | .error e => .error e
  else .error .xnException

/-- Splits a list into an exact prefix of n elements and the remainder, or none
when fewer than n elements remain (a blocking read that never completes). -/
def splitAtExact : Nat → List Nat → Option (List Nat × List Nat)
  | 0, l => some ([], l)
  | _ + 1, [] => none
  | n + 1, x :: xs =>
    match splitAtExact n xs with
    | some (a, b) => some (x :: a, b)
    | none => none

/-- Outcome of recvChecksummedData on a finite stream. -/
inductive RecvResult where
  | blocked
  | checksumFail (rest : List Nat)
  | ok (data : List Nat) (rest : List Nat)
deriving DecidableEq, Repr

/-- Embedding of the private recvChecksummedData method: reads length plus one
bytes from the stream (blocking when not enough bytes arrive), verifies the XOR
of the previous byte and the body against the trailing byte, and raises
XpressNetException (checksumFail) on mismatch, consuming the frame bytes either
way. -/
def recvChecksummedData (previous length : Nat) (stream : List Nat) : RecvResult :=
  match splitAtExact length stream with
  | none => .blocked
  | some (body, rest1) =>
    match rest1 with
    | [] => .blocked
    | chk :: rest =>
      match checksumCheck (previous :: body) chk with
      | .ok _ => .ok body rest
      | .error _ => .checksumFail rest

/-- Fuel-indexed embedding of the private handleResponse read loop: read three
bytes as preamble and header, validate the command code (ValueError aborts),
read and checksum the payload (a checksum failure is logged and the loop
continues), then return the direct response as decoded, or absorb a broadcast
into the session state and return it, or raise on an unknown preamble. -/
def handleResponseAux (cmd : Option Nat) (st : SessionState) :
    Nat → List Nat → Except Err (Msg × SessionState × List Nat)
  | 0, _ => .error .fuelExhausted
  | fuel + 1, p1 :: p2 :: header :: rest =>
    if isValidCommand (header &&& 0xF0) then
      match recvChecksummedData header (header &&& 0x0F) rest with
      | .blocked => .error .blockedRead
      | .checksumFail rest2 => handleResponseAux cmd st fuel rest2
      | .ok data rest2 =>
        if p1 * 256 + p2 = 0xFFFE then
          match getStatus cmd false (header &&& 0xF0) (header &&& 0x0F) data with
          | .ok m => .ok (m, st, rest2)
          | .error e => .error e
        else if p1 * 256 + p2 = 0xFFFD then
          match getStatus cmd true (header &&& 0xF0) (header &&& 0x0F) data with
          | .ok m =>
            .ok (m,
              { last_broadcast := some m
                track_status :=
                  match m with
                  | .trackStatusMessage ts => ts
                  | _ => st.track_status }, rest2)
          | .error e => .error e
        else .error .xnException
    else .error .valueError
  | _ + 1, _ => .error .blockedRead

/-- The handleResponse loop on a finite stream.  Each loop iteration consumes
at least four stream bytes, so a fuel of the stream length plus one is always
enough; the fuelExhausted outcome is unreachable. -/
def handleResponse (cmd : Option Nat) (st : SessionState) (stream : List Nat) :
    Except Err (Msg × SessionState × List Nat) :=
  handleResponseAux cmd st (stream.length + 1) stream

/-- The outbound half of cmd: validate the command code, then send the header
byte (code ORed with the parameter count, with no bound check on that count)
followed by the parameter bytes.  On success the result is the exact byte
sequence written to the transport. -/
def cmdSend (c : Nat) (params : List Nat) : Except Err (List Nat) :=
  if isValidCommand (c &&& 0xF0) then
    send (((c &&& 0xF0) ||| params.length) :: params)
  else .error .valueError

/-- Embedding of cmd: send the command frame, run the response loop, then log a
debug line that unconditionally reads the status and data attributes of the
result and afterwards compare its code attribute against the expectation; a
result lacking those attributes raises AttributeError.  On success the result
carries the message, the updated session state, the bytes written and the
remaining stream. -/
def cmdCall (c : Nat) (params : List Nat) (expected : Option Nat)
    (st : SessionState) (stream : List Nat) :
    Except Err (Msg × SessionState × List Nat × List Nat) :=
  match cmdSend c params with
  | .error e => .error e
  | .ok frame =>
    match handleResponse (some (c &&& 0xF0)) st stream with
    | .error e => .error e
    | .ok (m, st2, rest) =>
      match m with
      | .commandResult r =>
        if r.code = 0 then .ok (m, st2, frame, rest)
        else if r.code ≠ (expected.getD (c &&& 0xF0)) then .error .xnException
        else .ok (m, st2, frame, rest)
      | _ => .error .attributeError

/-- The outbound frame as claim C2 words it (modelled from the claim, not from
the source): the trailing checksum byte covers the parameter bytes only, the
header byte being excluded. -/
def claimC2Frame (c : Nat) (params : List Nat) : List Nat :=
  [0xFF, 0xFE, (c &&& 0xF0) ||| params.length] ++ params ++
    [params.foldl (· ^^^ ·) 0]

/-- The bit i of n as the 0 or 1 the accessory decoder stores. -/
def bitVal (n i : Nat) : Nat := if n.testBit i then 1 else 0

/-- splitAtExact recovers an exact-length prefix. -/
lemma splitAtExact_append (a b : List Nat) :
    splitAtExact a.length (a ++ b) = some (a, b) := by
  induction a with
  | nil => rfl
  | cons x xs ih => simp [splitAtExact, ih]

/-- A successful splitAtExact decomposes the input list. -/
lemma splitAtExact_eq_some {n : Nat} {l a b : List Nat}
    (h : splitAtExact n l = some (a, b)) : l = a ++ b ∧ a.length = n := by
  induction n generalizing l a b with
  | zero =>
    simp only [splitAtExact, Option.some.injEq, Prod.mk.injEq] at h
    obtain ⟨rfl, rfl⟩ := h
    exact ⟨rfl, rfl⟩
  | succ n ih =>
    cases l with
    | nil => simp [splitAtExact] at h
    | cons x xs =>
      simp only [splitAtExact] at h
      cases hs : splitAtExact n xs with
      | none => rw [hs] at h; simp at h
      | some p =>
        obtain ⟨a0, b0⟩ := p
        rw [hs] at h
        simp only [Option.some.injEq, Prod.mk.injEq] at h
        obtain ⟨rfl, rfl⟩ := h
        obtain ⟨heq, hlen⟩ := ih hs
        subst heq
        exact ⟨rfl, by simp [hlen]⟩

/-- recvChecksummedData succeeds on a well-formed body and matching checksum. -/
lemma recvChecksummedData_ok (previous : Nat) (body : List Nat) (chk : Nat)
    (rest : List Nat) (h : body.foldl (· ^^^ ·) previous = chk) :
    recvChecksummedData previous body.length (body ++ chk :: rest) =
      .ok body rest := by
  unfold recvChecksummedData
  rw [splitAtExact_append]
  simp [checksumCheck, checksumReduce, h]

/-- recvChecksummedData reports a checksum failure on a mismatching trailing
byte, consuming the whole frame. -/
lemma recvChecksummedData_fail (previous : Nat) (body : List Nat) (chk : Nat)
    (rest : List Nat) (h : body.foldl (· ^^^ ·) previous ≠ chk) :
    recvChecksummedData previous body.length (body ++ chk :: rest) =
      .checksumFail rest := by
  unfold recvChecksummedData
  rw [splitAtExact_append]
  simp [checksumCheck, checksumReduce, h]

/-- A checksum failure strictly shrinks the stream. -/
lemma recvChecksummedData_fail_length {previous length : Nat}
    {stream rest : List Nat}
    (h : recvChecksummedData previous length stream = .checksumFail rest) :
    rest.length < stream.length := by
  unfold recvChecksummedData at h
  cases hs : splitAtExact length stream with
  | none => rw [hs] at h; simp at h
  | some p =>
    obtain ⟨body, rest1⟩ := p
    rw [hs] at h
    cases rest1 with
    | nil => simp at h
    | cons chk rest2 =>
      obtain ⟨heq, hlen⟩ := splitAtExact_eq_some hs
      have h2 : (match checksumCheck (previous :: body) chk with
          | Except.ok _ => RecvResult.ok body rest2
          | Except.error _ => RecvResult.checksumFail rest2) =
          RecvResult.checksumFail rest := h
      cases hc : checksumCheck (previous :: body) chk with
      | ok u => rw [hc] at h2; simp at h2
      | error e =>
        rw [hc] at h2
        simp only [RecvResult.checksumFail.injEq] at h2
        subst h2
        subst heq
        simp only [List.length_append, List.length_cons]
        omega

/-- The result of the response loop does not depend on the fuel, as long as the
fuel exceeds the stream length. -/
lemma handleResponseAux_fuel (cmd : Option Nat) (st : SessionState) :
    ∀ n f1 f2 (stream : List Nat), stream.length ≤ n →
      stream.length < f1 → stream.length < f2 →
      handleResponseAux cmd st f1 stream = handleResponseAux cmd st f2 stream := by
  intro n
  induction n with
  | zero =>
    intro f1 f2 stream h h1 h2
    have hnil : stream = [] := List.eq_nil_of_length_eq_zero (Nat.le_zero.mp h)
    subst hnil
    cases f1 with
    | zero => omega
    | succ a =>
      cases f2 with
      | zero => omega
      | succ b => rfl
  | succ n ih =>
    intro f1 f2 stream h h1 h2
    cases f1 with
    | zero => omega
    | succ a =>
      cases f2 with
      | zero => omega
      | succ b =>
        match stream with
        | [] => rfl
        | [p1] => rfl
        | [p1, p2] => rfl
        | p1 :: p2 :: header :: rest =>
          simp only [handleResponseAux]
          cases hrecv : recvChecksummedData header (header &&& 0x0F) rest with
          | blocked => rfl
          | ok data rest2 => rfl
          | checksumFail rest2 =>
            have hlen := recvChecksummedData_fail_length hrecv
            have hsl : (p1 :: p2 :: header :: rest).length = rest.length + 3 := by
              simp
            have hle : rest2.length ≤ n := by omega
            have hlt1 : rest2.length < a := by omega
            have hlt2 : rest2.length < b := by omega
            simp only [ih a b rest2 hle hlt1 hlt2]

/-- A well-formed direct frame at the head of the stream resolves the loop with
the decoded message and leaves the session state untouched. -/
lemma handleResponse_direct (cmd : Option Nat) (st : SessionState) (header : Nat)
    (body : List Nat) (chk : Nat) (rest : List Nat) (m : Msg)
    (hv : isValidCommand (header &&& 0xF0) = true)
    (hlen : body.length = header &&& 0x0F)
    (hchk : body.foldl (· ^^^ ·) header = chk)
    (hdec : getStatus cmd false (header &&& 0xF0) (header &&& 0x0F) body = .ok m) :
    handleResponse cmd st (0xFF :: 0xFE :: header :: (body ++ chk :: rest)) =
      .ok (m, st, rest) := by
  have hrecv : recvChecksummedData header (header &&& 0x0F) (body ++ chk :: rest) =
      .ok body rest := by
    rw [← hlen]
    exact recvChecksummedData_ok header body chk rest hchk
  unfold handleResponse
  simp only [List.length_cons, handleResponseAux, hv, if_true, hrecv, hdec]

/-- A well-formed broadcast frame at the head of the stream resolves the loop
with the decoded message after absorbing it into the session state. -/
lemma handleResponse_broadcast (cmd : Option Nat) (st : SessionState)
    (header : Nat) (body : List Nat) (chk : Nat) (rest : List Nat) (m : Msg)
    (hv : isValidCommand (header &&& 0xF0) = true)
    (hlen : body.length = header &&& 0x0F)
    (hchk : body.foldl (· ^^^ ·) header = chk)
    (hdec : getStatus cmd true (header &&& 0xF0) (header &&& 0x0F) body = .ok m) :
    handleResponse cmd st (0xFF :: 0xFD :: header :: (body ++ chk :: rest)) =
      .ok (m,
        { last_broadcast := some m
          track_status :=
            match m with
            | .trackStatusMessage ts => ts
            | _ => st.track_status }, rest) := by
  have hrecv : recvChecksummedData header (header &&& 0x0F) (body ++ chk :: rest) =
      .ok body rest := by
    rw [← hlen]
    exact recvChecksummedData_ok header body chk rest hchk
  unfold handleResponse
  simp only [List.length_cons, handleResponseAux, hv, if_true, hrecv, hdec]
  cases m <;> rfl

/-- Whenever the loop returns a message, either the cached track power state is
unchanged or the message is a TrackStatus message carrying the new state. -/
lemma handleResponseAux_track (cmd : Option Nat) :
    ∀ (fuel : Nat) (st : SessionState) (stream : List Nat) (m : Msg)
      (st2 : SessionState) (rest : List Nat),
      handleResponseAux cmd st fuel stream = .ok (m, st2, rest) →
      st2.track_status = st.track_status ∨ m = .trackStatusMessage st2.track_status := by
  intro fuel
  induction fuel with
  | zero => intro st stream m st2 rest h; simp [handleResponseAux] at h
  | succ f ih =>
    intro st stream m st2 rest h
    match stream with
    | [] => simp [handleResponseAux] at h
    | [p1] => simp [handleResponseAux] at h
    | [p1, p2] => simp [handleResponseAux] at h
    | p1 :: p2 :: header :: tail =>
      simp only [handleResponseAux] at h
      by_cases hv : isValidCommand (header &&& 0xF0) = true
      case neg => simp [hv] at h
      case pos =>
        rw [if_pos hv] at h
        split at h
        · simp at h
        · exact ih _ _ _ _ _ h
        · split at h
          · split at h
            · rename_i m0 hdec
              simp only [Except.ok.injEq, Prod.mk.injEq] at h
              obtain ⟨rfl, rfl, rfl⟩ := h
              exact Or.inl rfl
            · simp at h
          · split at h
            · split at h
              · rename_i m0 hdec
                simp only [Except.ok.injEq, Prod.mk.injEq] at h
                obtain ⟨rfl, rfl, rfl⟩ := h
                cases m0 with
                | trackStatusMessage ts => exact Or.inr rfl
                | commandResult r => exact Or.inl rfl
                | programmingResult r => exact Or.inl rfl
                | accessoryState a => exact Or.inl rfl
              · simp at h
            · simp at h

/-- Claim C7 counterexample: the checksum reduce of the source has no initial
value, so on the empty sequence it raises TypeError rather than returning the
claimed identity element 0. -/
theorem claimC7_counterexample :
    checksumReduce [] = none ∧ checksumReduce [] ≠ some 0 := by
  exact ⟨rfl, by decide⟩

/-- Claim C7 (amended): the checksum function is the XOR reduction of a
NONEMPTY byte sequence (the empty sequence raises TypeError, since the reduce
has no initial value); for every nonempty sequence p the checksum is
deterministic and appending the checksum of p to p makes the whole sequence
XOR to 0. -/
theorem claimC7_amended (p : List Nat) (hp : p ≠ []) :
    checksumReduce p = checksumReduce p ∧
      ∃ c, checksumReduce p = some c ∧ checksumReduce (p ++ [c]) = some 0 := by
  refine ⟨rfl, ?_⟩
  obtain ⟨b, bs, rfl⟩ := List.exists_cons_of_ne_nil hp
  refine ⟨bs.foldl (· ^^^ ·) b, rfl, ?_⟩
  show checksumReduce (b :: (bs ++ [bs.foldl (· ^^^ ·) b])) = some 0
  simp [checksumReduce, List.foldl_append]

/-- Claim C7 witness: the amended claim at the concrete sequence 3, 5 whose
checksum is 6. -/
theorem claimC7_witness :
    checksumReduce [3, 5] = checksumReduce [3, 5] ∧
      ∃ c, checksumReduce [3, 5] = some c ∧
        checksumReduce ([3, 5] ++ [c]) = some 0 :=
  claimC7_amended [3, 5] (by decide)

/-- Claim C2 counterexample: for command code 0xF0 with the single parameter
0x05 the code puts 0xF4 = XOR(0xF1, 0x05) on the wire as the trailing byte,
including the header byte 0xF1 in the outbound checksum, while the claim
(checksum over the parameter bytes only) predicts a trailing byte 0x05. -/
theorem claimC2_counterexample :
    cmdSend 0xF0 [0x05] = .ok [0xFF, 0xFE, 0xF1, 0x05, 0xF4] ∧
      claimC2Frame 0xF0 [0x05] = [0xFF, 0xFE, 0xF1, 0x05, 0x05] ∧
      cmdSend 0xF0 [0x05] ≠ .ok (claimC2Frame 0xF0 [0x05]) := by
  refine ⟨rfl, rfl, ?_⟩
  intro h
  rw [(rfl : cmdSend 0xF0 [0x05] = .ok [0xFF, 0xFE, 0xF1, 0x05, 0xF4]),
    (rfl : claimC2Frame 0xF0 [0x05] = [0xFF, 0xFE, 0xF1, 0x05, 0x05])] at h
  exact absurd (Except.ok.inj h) (by decide)

/-- The outbound write of cmd, evaluated: for a valid command code and in-range
bytes, cmdSend produces the frame whose trailing byte XORs the header byte
together with the parameter bytes. -/
lemma cmdSend_eq (c : Nat) (params : List Nat)
    (hc : isValidCommand (c &&& 0xF0) = true)
    (hp : ∀ b ∈ params, b ≤ 255)
    (hh : (c &&& 0xF0) ||| params.length ≤ 255) :
    cmdSend c params =
      .ok ([0xFF, 0xFE] ++ (((c &&& 0xF0) ||| params.length) :: params) ++
        [params.foldl (· ^^^ ·) ((c &&& 0xF0) ||| params.length)]) := by
  unfold cmdSend send
  have hany : (((c &&& 0xF0) ||| params.length) :: params).any
      (fun b => decide (255 < b)) = false := by
    simp only [List.any_eq_false, decide_eq_true_eq]
    intro b hb
    rcases List.mem_cons.mp hb with hb | hb
    · omega
    · have := hp b hb; omega
  simp [hc, hany, checksumReduce]

/-- Claim C2 (amended): for every valid command code and every parameter list
of in-range bytes whose header byte is in range, the outbound frame is
0xFF 0xFE, the header byte (code ORed with the parameter count), the parameter
bytes, and a trailing checksum byte that is the XOR of the HEADER BYTE AND the
parameter bytes (the header byte is included in the outbound checksum). -/
theorem claimC2_amended (c : Nat) (params : List Nat)
    (hc : isValidCommand (c &&& 0xF0) = true)
    (hp : ∀ b ∈ params, b ≤ 255)
    (hh : (c &&& 0xF0) ||| params.length ≤ 255) :
    cmdSend c params =
      .ok ([0xFF, 0xFE] ++ (((c &&& 0xF0) ||| params.length) :: params) ++
        [params.foldl (· ^^^ ·) ((c &&& 0xF0) ||| params.length)]) :=
  cmdSend_eq c params hc hp hh

/-- Claim C2 amended witness: command code 0x20 with parameter 0x80 produces
the frame FF FE 21 80 A1 whose trailing byte A1 is XOR(0x21, 0x80). -/
theorem claimC2_amended_witness :
    cmdSend 0x20 [0x80] = .ok [0xFF, 0xFE, 0x21, 0x80, 0xA1] := by
  have h := claimC2_amended 0x20 [0x80] (by decide) (by decide) (by decide)
  simpa using h

/-- Claim C3: the code performs no parameter-count check at all.  Called with
the command code 0xF0 and sixteen parameter bytes, cmd raises nothing and
writes a twenty-byte frame to the transport; the header byte 0xF0 ORs the
count 16 into the code nibble region, silently encoding a payload length of
zero.  The claim (an EncodingConstraintError raised before any write) names an
error class that does not exist anywhere in the source. -/
theorem claimC3_no_length_check :
    cmdSend 0xF0 [1, 1, 1, 1, 1, 1, 1, 1, 1, 1, 1, 1, 1, 1, 1, 1] =
      .ok [0xFF, 0xFE, 0xF0, 1, 1, 1, 1, 1, 1, 1, 1, 1, 1, 1, 1, 1, 1, 1, 1,
        0xF0] := by
  rfl

/-- Claim C1 counterexample: with a command pending (cmd 0x20) and a stream
holding ONLY a broadcast frame (preamble 0xFFFD, TrackStatus on) and no direct
response frame at all, the read loop resolves successfully with the broadcast
message instead of continuing to read (which on this stream would block).  The
broadcast return in the source replaces the loop continuation the claim
describes. -/
theorem claimC1_counterexample :
    handleResponse (some 0x20) initState [0xFF, 0xFD, 0x61, 0x01, 0x60] =
      .ok (.trackStatusMessage .on,
        { last_broadcast := some (.trackStatusMessage .on),
          track_status := .on }, []) := by
  rfl

/-- Claim C1 (amended): a broadcast frame (0xFFFD preamble) IS absorbed into
session state (last_broadcast, and track_status when the message is a
TrackStatus message), but it then RESOLVES the pending call: the response
handler returns the broadcast message itself instead of continuing to read
until a direct-response frame arrives. -/
theorem claimC1_amended (cmd : Option Nat) (st : SessionState) (header : Nat)
    (body : List Nat) (chk : Nat) (rest : List Nat) (m : Msg)
    (hv : isValidCommand (header &&& 0xF0) = true)
    (hlen : body.length = header &&& 0x0F)
    (hchk : body.foldl (· ^^^ ·) header = chk)
    (hdec : getStatus cmd true (header &&& 0xF0) (header &&& 0x0F) body = .ok m) :
    handleResponse cmd st (0xFF :: 0xFD :: header :: (body ++ chk :: rest)) =
      .ok (m,
        { last_broadcast := some m
          track_status :=
            match m with
            | .trackStatusMessage ts => ts
            | _ => st.track_status }, rest) :=
  handleResponse_broadcast cmd st header body chk rest m hv hlen hchk hdec

/-- Claim C1 amended witness: the broadcast frame FF FD 61 01 60 carrying
TrackStatus on resolves a pending cmd 0x20 with the broadcast message and
updates the session state. -/
theorem claimC1_amended_witness :
    handleResponse (some 0x20) initState
        (0xFF :: 0xFD :: 0x61 :: ([0x01] ++ 0x60 :: [0x11, 0x22])) =
      .ok (.trackStatusMessage .on,
        { last_broadcast := some (.trackStatusMessage .on),
          track_status := .on }, [0x11, 0x22]) :=
  claimC1_amended (some 0x20) initState 0x61 [0x01] 0x60 [0x11, 0x22]
    (.trackStatusMessage .on) (by decide) (by decide) (by decide) (by rfl)

/-- Claim C6: an inbound frame whose trailing byte differs from the XOR of the
header byte and the payload bytes raises the checksum error inside
recvChecksummedData, and the read loop absorbs it: the frame bytes are
discarded, the loop neither terminates nor propagates the error, and the
handler behaves exactly as if reading had started at the next frame, so a
subsequent valid frame in the stream is decoded normally. -/
theorem claimC6_checksum_resync (cmd : Option Nat) (st : SessionState)
    (p1 p2 header : Nat) (body : List Nat) (chk : Nat) (rest : List Nat)
    (hv : isValidCommand (header &&& 0xF0) = true)
    (hlen : body.length = header &&& 0x0F)
    (hchk : body.foldl (· ^^^ ·) header ≠ chk) :
    recvChecksummedData header (header &&& 0x0F) (body ++ chk :: rest) =
        .checksumFail rest ∧
      handleResponse cmd st (p1 :: p2 :: header :: (body ++ chk :: rest)) =
        handleResponse cmd st rest := by
  have hrecv : recvChecksummedData header (header &&& 0x0F) (body ++ chk :: rest) =
      .checksumFail rest := by
    rw [← hlen]
    exact recvChecksummedData_fail header body chk rest hchk
  refine ⟨hrecv, ?_⟩
  unfold handleResponse
  simp only [List.length_cons, handleResponseAux, hv, if_true, hrecv]
  apply handleResponseAux_fuel cmd st rest.length
  · exact Nat.le_refl _
  · simp only [List.length_append, List.length_cons]
    omega
  · omega

/-- Claim C6 witness: the corrupted frame FF FE 61 01 99 (expected checksum
0x60) is discarded and the handler then decodes the following valid direct
programming frame FF FE 63 10 05 C8 BE exactly as if the bad frame had never
arrived. -/
theorem claimC6_witness :
    recvChecksummedData 0x61 (0x61 &&& 0x0F)
        ([0x01] ++ 0x99 :: [0xFF, 0xFE, 0x63, 0x10, 0x05, 0xC8, 0xBE]) =
      .checksumFail [0xFF, 0xFE, 0x63, 0x10, 0x05, 0xC8, 0xBE] ∧
    handleResponse none initState
        (0xFF :: 0xFE :: 0x61 ::
          ([0x01] ++ 0x99 :: [0xFF, 0xFE, 0x63, 0x10, 0x05, 0xC8, 0xBE])) =
      handleResponse none initState [0xFF, 0xFE, 0x63, 0x10, 0x05, 0xC8, 0xBE] :=
  claimC6_checksum_resync none initState 0xFF 0xFE 0x61 [0x01] 0x99
    [0xFF, 0xFE, 0x63, 0x10, 0x05, 0xC8, 0xBE] (by decide) (by decide)
    (by decide)

/-- Claim C5: for a non-broadcast status frame (command code 0x60) with a
three-byte payload of subcode, cv and value, the decoder returns a
ProgrammingResult with cv as given for subcode 0x10; cv equal to 1024 when the
subcode is 0x14 and cv is 0, else cv as given; cv plus 256, 512 or 768 for
subcodes 0x15, 0x16 and 0x17; any other subcode raises an error, and a payload
whose length is not 3 raises an error. -/
theorem claimC5_programming_decode (cmd : Option Nat) (length cv value : Nat) :
    getStatus cmd false 0x60 length [0x10, cv, value] =
        .ok (.programmingResult { cv := cv, value := value }) ∧
      getStatus cmd false 0x60 length [0x14, 0, value] =
        .ok (.programmingResult { cv := 1024, value := value }) ∧
      (cv ≠ 0 → getStatus cmd false 0x60 length [0x14, cv, value] =
        .ok (.programmingResult { cv := cv, value := value })) ∧
      getStatus cmd false 0x60 length [0x15, cv, value] =
        .ok (.programmingResult { cv := cv + 256, value := value }) ∧
      getStatus cmd false 0x60 length [0x16, cv, value] =
        .ok (.programmingResult { cv := cv + 512, value := value }) ∧
      getStatus cmd false 0x60 length [0x17, cv, value] =
        .ok (.programmingResult { cv := cv + 768, value := value }) ∧
      (∀ subcode, subcode ∉ ([0x10, 0x14, 0x15, 0x16, 0x17] : List Nat) →
        getStatus cmd false 0x60 length [subcode, cv, value] =
          .error .xnException) ∧
      (∀ data : List Nat, data.length ≠ 3 →
        getStatus cmd false 0x60 length data = .error .xnException) := by
  refine ⟨?_, ?_, ?_, ?_, ?_, ?_, ?_, ?_⟩
  · simp [getStatus]
  · simp [getStatus]
  · intro h; simp [getStatus, h]
  · simp [getStatus]
  · simp [getStatus]
  · simp [getStatus]
  · intro subcode hsub
    simp only [List.mem_cons, List.not_mem_nil, or_false, not_or] at hsub
    obtain ⟨h1, h2, h3, h4, h5⟩ := hsub
    simp [getStatus, h1, h2, h3, h4, h5]
  · intro data hdata
    match data with
    | [] => simp [getStatus]
    | [a] => simp [getStatus]
    | [a, b] => simp [getStatus]
    | [a, b, c] => simp at hdata
    | a :: b :: c :: d :: tl => simp [getStatus]

/-- Claim C5 witness: concrete decodes, including the cv 1024 special case,
an unknown subcode 0x18 and a two-byte payload. -/
theorem claimC5_witness :
    getStatus none false 0x60 3 [0x14, 5, 200] =
        .ok (.programmingResult { cv := 5, value := 200 }) ∧
      getStatus none false 0x60 3 [0x18, 5, 200] = .error .xnException ∧
      getStatus none false 0x60 3 [0x10, 5] = .error .xnException :=
  ⟨(claimC5_programming_decode none 3 5 200).2.2.1 (by decide),
   (claimC5_programming_decode none 3 5 200).2.2.2.2.2.2.1 0x18 (by decide),
   (claimC5_programming_decode none 3 5 200).2.2.2.2.2.2.2 [0x10, 5] (by decide)⟩

/-- Masking with a single power of two is nonzero exactly on a set bit. -/
lemma and_two_pow_ne_zero (n i : Nat) : (n &&& 2 ^ i != 0) = n.testBit i := by
  rw [Nat.and_two_pow]
  cases h : n.testBit i
  · simp
  · simp [(Nat.two_pow_pos i).ne']

/-- Claim C8: a two-byte accessory-report payload decodes bit for bit: the
address is byte 0; undetermined is bit 6 of byte 1; the kind value is bits 6
and 5 of byte 1 (the enumeration member with that value); the nibble is bit 4
of byte 1; and state i is bit i of byte 1 for i from 0 to 3. -/
theorem claimC8_accessory_bits (b0 b1 : Nat) :
    ∃ m, AccessoryStateMessage.ofBytes [b0, b1] = .ok m ∧
      m.address = b0 ∧
      m.undetermined = b1.testBit 6 ∧
      m.kind.toNat = (b1 >>> 5) % 4 ∧
      m.nibble = (b1 >>> 4) % 2 ∧
      m.state = [bitVal b1 0, bitVal b1 1, bitVal b1 2, bitVal b1 3] := by
  have hk : (b1 >>> 5) &&& 3 = (b1 >>> 5) % 4 := by
    have h2 := Nat.and_pow_two_sub_one_eq_mod (b1 >>> 5) 2
    norm_num at h2
    exact h2
  have hn : (b1 >>> 4) &&& 1 = (b1 >>> 4) % 2 := Nat.and_one_is_mod _
  have h64 : (b1 &&& 64 != 0) = b1.testBit 6 := by
    have h2 := and_two_pow_ne_zero b1 6
    norm_num at h2
    exact h2
  have hstate : (List.range 4).map
        (fun i => if b1 &&& (1 <<< i) != 0 then 1 else 0) =
      [bitVal b1 0, bitVal b1 1, bitVal b1 2, bitVal b1 3] := by
    have hbit : ∀ i, (if b1 &&& (1 <<< i) != 0 then (1 : Nat) else 0) =
        bitVal b1 i := by
      intro i
      have h1 : (1 : Nat) <<< i = 2 ^ i := by rw [Nat.shiftLeft_eq, one_mul]
      rw [h1, bitVal, and_two_pow_ne_zero]
    have hr : List.range 4 = [0, 1, 2, 3] := rfl
    rw [hr]
    simp only [List.map_cons, List.map_nil, hbit]
  have h4 : (b1 >>> 5) % 4 = 0 ∨ (b1 >>> 5) % 4 = 1 ∨ (b1 >>> 5) % 4 = 2 ∨
      (b1 >>> 5) % 4 = 3 := by omega
  have hred : AccessoryStateMessage.ofBytes [b0, b1] =
      (match AccessoryKind.ofValue ((b1 >>> 5) &&& 3) with
       | some k =>
         Except.ok
           { address := b0
             undetermined := b1 &&& 64 != 0
             kind := k
             nibble := (b1 >>> 4) &&& 1
             state := (List.range 4).map
               (fun i => if b1 &&& (1 <<< i) != 0 then 1 else 0) }
       | none => Except.error Err.valueError) := rfl
  rw [hred, hk]
  rcases h4 with h | h | h | h <;> rw [h] <;>
    exact ⟨_, rfl, rfl, h64, rfl, hn, hstate⟩

/-- Claim C9: the cached track power state starts as off; whenever the handler
resolves with a message that is not a TrackStatus message the cached state is
unchanged; a non-broadcast frame can never decode to a TrackStatus message (so
only broadcasts can update the cache); and the 0xFFFD broadcast with code 0x60
and payload byte 0x01 sets the cache to on. -/
theorem claimC9_track_power :
    initState.track_status = TrackStatus.off ∧
    (∀ (cmd : Option Nat) (st : SessionState) (stream : List Nat) (m : Msg)
        (st2 : SessionState) (rest : List Nat),
      handleResponse cmd st stream = .ok (m, st2, rest) →
      (∀ ts, m ≠ .trackStatusMessage ts) →
      st2.track_status = st.track_status) ∧
    (∀ (cmd : Option Nat) (code length : Nat) (data : List Nat)
        (ts : TrackStatus),
      getStatus cmd false code length data ≠ .ok (.trackStatusMessage ts)) ∧
    (∀ (cmd : Option Nat) (st : SessionState) (rest : List Nat),
      handleResponse cmd st ([0xFF, 0xFD, 0x61, 0x01, 0x60] ++ rest) =
        .ok (.trackStatusMessage .on,
          { last_broadcast := some (.trackStatusMessage .on),
            track_status := .on }, rest)) := by
  refine ⟨rfl, ?_, ?_, ?_⟩
  · intro cmd st stream m st2 rest h hm
    unfold handleResponse at h
    rcases handleResponseAux_track cmd (stream.length + 1) st stream m st2 rest h
      with h1 | h1
    · exact h1
    · exact absurd h1 (hm _)
  · intro cmd code length data ts h
    unfold getStatus at h
    repeat' split at h
    all_goals simp_all
  · intro cmd st rest
    exact handleResponse_broadcast cmd st 0x61 [0x01] 0x60 rest
      (.trackStatusMessage .on) (by decide) (by decide) (by decide) (by rfl)

/-- Claim C9 witness: after handling the direct accessory frame
FF FE 42 07 25 60 the session state is unchanged from the initial state, and
the TrackStatus broadcast FF FD 61 01 60 sets the track power cache to on. -/
theorem claimC9_witness :
    initState.track_status = TrackStatus.off ∧
    (SessionState.mk none TrackStatus.off).track_status =
      initState.track_status ∧
    handleResponse none initState ([0xFF, 0xFD, 0x61, 0x01, 0x60] ++ [0x07]) =
      .ok (.trackStatusMessage .on,
        { last_broadcast := some (.trackStatusMessage .on),
          track_status := .on }, [0x07]) := by
  refine ⟨claimC9_track_power.1, ?_, claimC9_track_power.2.2.2 none initState [0x07]⟩
  exact claimC9_track_power.2.1 none initState
    [0xFF, 0xFE, 0x42, 0x07, 0x25, 0x60]
    (.accessoryState
      { address := 7, undetermined := false, kind := .outputWithFeedback,
        nibble := 0, state := [1, 0, 1, 0] })
    (SessionState.mk none TrackStatus.off) [] (by rfl)
    (fun ts h => Msg.noConfusion h)

/-- Claim C10: every ProgrammingResult the decoder produces from in-range
payload bytes has a cv between 0 and 1024 and a value between 0 and 255. -/
theorem claimC10_result_bounds (cmd : Option Nat) (isBroadcast : Bool)
    (code length : Nat) (data : List Nat)
    (hdata : ∀ b ∈ data, b ≤ 255) (r : XpressNetProgrammingResult)
    (h : getStatus cmd isBroadcast code length data =
      .ok (.programmingResult r)) :
    r.cv ≤ 1024 ∧ r.value ≤ 255 := by
  unfold getStatus at h
  split at h
  · split at h
    · simp at h
    · split at h
      · split at h <;> simp at h
      · simp at h
  · split at h
    · split at h
      · split at h
        · split at h <;> simp at h
        · simp at h
      · split at h
        · rename_i subcode cv value
          have hcv : cv ≤ 255 := hdata cv (by simp)
          have hvl : value ≤ 255 := hdata value (by simp)
          have hfin : ∀ X : Nat,
              (Except.ok (Msg.programmingResult { cv := X, value := value }) :
                Except Err Msg) = .ok (.programmingResult r) →
              X ≤ 1024 → r.cv ≤ 1024 ∧ r.value ≤ 255 := by
            intro X hX hle
            have h2 : XpressNetProgrammingResult.mk X value = r := by
              simpa using hX
            subst h2
            exact ⟨hle, hvl⟩
          split_ifs at h <;>
            first
            | exact hfin cv h (by omega)
            | exact hfin 1024 h (by omega)
            | exact hfin (cv + 256) h (by omega)
            | exact hfin (cv + 512) h (by omega)
            | exact hfin (cv + 768) h (by omega)
        · simp at h
    · split at h
      · split at h
        · split at h <;> simp at h
        · simp at h
      · split at h
        · split at h <;> simp at h
        · simp at h

/-- Claim C10 witness: the decode of subcode 0x17 with cv 3 and value 9 yields
the ProgrammingResult with cv 771 and value 9, inside the claimed bounds. -/
theorem claimC10_witness :
    (XpressNetProgrammingResult.mk 771 9).cv ≤ 1024 ∧
      (XpressNetProgrammingResult.mk 771 9).value ≤ 255 :=
  claimC10_result_bounds none false 0x60 3 [0x17, 3, 9] (by decide)
    (XpressNetProgrammingResult.mk 771 9) (by rfl)

/-- Claim C4: when the response loop resolves with a direct (0xFFFE preamble)
response whose decoded variant is not an XpressNetCommandResult (that is, a
ProgrammingResult, TrackStatusMessage or AccessoryStateMessage), cmd raises
AttributeError instead of returning the message, because the debug log line
reads the status and data attributes unconditionally and the code attribute is
read right after, none of which those variants define. -/
theorem claimC4_attribute_error (c : Nat) (params : List Nat)
    (expected : Option Nat) (st : SessionState) (header : Nat)
    (body : List Nat) (chk : Nat) (rest : List Nat) (m : Msg)
    (hc : isValidCommand (c &&& 0xF0) = true)
    (hp : ∀ b ∈ params, b ≤ 255)
    (hh : (c &&& 0xF0) ||| params.length ≤ 255)
    (hv : isValidCommand (header &&& 0xF0) = true)
    (hlen : body.length = header &&& 0x0F)
    (hchk : body.foldl (· ^^^ ·) header = chk)
    (hdec : getStatus (some (c &&& 0xF0)) false (header &&& 0xF0)
      (header &&& 0x0F) body = .ok m)
    (hm : ∀ r, m ≠ .commandResult r) :
    cmdCall c params expected st
        (0xFF :: 0xFE :: header :: (body ++ chk :: rest)) =
      .error .attributeError := by
  unfold cmdCall
  simp only [cmdSend_eq c params hc hp hh]
  rw [handleResponse_direct (some (c &&& 0xF0)) st header body chk rest m hv
      hlen hchk hdec]
  cases m with
  | commandResult r => exact absurd rfl (hm r)
  | programmingResult r => rfl
  | trackStatusMessage s => rfl
  | accessoryState a => rfl

/-- Claim C4 witness: a direct programming response to a pending programming
command makes cmd raise AttributeError. -/
theorem claimC4_witness :
    cmdCall 0x23 [0x80] none initState
        (0xFF :: 0xFE :: 0x63 :: ([0x10, 0x05, 0xC8] ++ 0xBE :: [])) =
      .error .attributeError :=
  claimC4_attribute_error 0x23 [0x80] none initState 0x63 [0x10, 0x05, 0xC8]
    0xBE [] (.programmingResult { cv := 0x05, value := 0xC8 }) (by decide)
    (by decide) (by decide) (by decide) (by decide) (by decide) (by rfl)
    (fun r h => Msg.noConfusion h)

end XpressNet
